import Mathlib

/-!
# Verification of the angular-rpg combat choose-action state and combat component

Shallow embedding of:
* `CombatChooseActionStateComponent.enter` and its closures (`chooseData.choose`,
  `next`, `chooseSubmit`) and `pointAtItem` from the choose-action state component.
* `CombatComponent.applyDamage` and the `_bindRenderCombat` event handlers
  (`combat:attack`, `combat:run`, `combat:defeat`) from `combat.component.ts`.

Machine-integer issues do not arise: the only numbers are damage values and
entity ids, which the source manipulates as ordinary JS numbers within safe
integer range; they are modelled as `Int` / `Nat`.
-/

namespace AngularRpg

/-- An entity participating in combat (`GameEntityObject`): the fields the
combat code reads are `_uid` (modelled as `uid`), `model.name` (modelled as
`name`) and the hit points that decide liveness. -/
structure GameEntityObject where
  uid : Nat
  name : String
  hp : Int
  /-- whether the runtime object is a `CombatPlayerComponent` (a party
  member's display entity), the class the `instanceof` test in the
  `combat:attack` handler checks -/
  isPlayer : Bool
deriving DecidableEq, Repr

/-- A chosen combat action (`CombatActionBehavior`): the choose-action code
reads `action.from` (the acting entity; named `from_` because `from` is a
reserved word) and `action.getActionName()` (modelled as `actionName`). -/
structure CombatActionBehavior where
  from_ : GameEntityObject
  actionName : String
deriving DecidableEq, Repr

/-- JS object property assignment `obj[k] = v` on a string-keyed record,
modelled as an association list: overwrite the entry when the key is present,
append it otherwise. -/
def objSet (m : List (Nat × CombatActionBehavior)) (k : Nat)
    (v : CombatActionBehavior) : List (Nat × CombatActionBehavior) :=
  match m with
  | [] => [(k, v)]
  | (k', v') :: rest =>
    if k' = k then (k, v) :: rest else (k', v') :: objSet rest k v

/-- Lookup in the Player Choice Map. -/
def objGet (m : List (Nat × CombatActionBehavior)) (k : Nat) :
    Option CombatActionBehavior :=
  match m with
  | [] => none
  | (k', v') :: rest => if k' = k then some v' else objGet rest k

/-- One swap step of underscore's Fisher-Yates shuffle: exchange the elements
at positions `i` and `j` (identity when either index is out of range, which
the clamped random index never produces). -/
def listSwap (l : List α) (i j : Nat) : List α :=
  match l[i]?, l[j]? with
  | some a, some b => (l.set i b).set j a
  | _, _ => l

/-- Underscore's `_.shuffle` (via `_.sample(obj, Infinity)`): a forward
Fisher-Yates shuffle that, for each index `i` from `0` to `length - 1`, swaps
position `i` with a random position in `[i, length - 1]`.  The random source
is abstracted as `rand : Nat → Nat`; `_.random(i, last)` returning a value in
the inclusive range is modelled by clamping `rand i` into the range. -/
def shuffle (rand : Nat → Nat) (l : List α) : List α :=
  (List.range l.length).foldl
    (fun acc i => listSwap acc i (i + rand i % (l.length - i))) l

/-- Consing the element taken at index `k` onto the list with `x` written at
index `k` is a permutation of consing `x` onto the original list. -/
theorem cons_set_perm (x : α) : ∀ (xs : List α) (k : Nat) (b : α),
    xs[k]? = some b → List.Perm (b :: xs.set k x) (x :: xs)
  | [], k, b, h => by simp at h
  | y :: ys, 0, b, h => by
      simp only [List.getElem?_cons_zero, Option.some.injEq] at h
      subst h
      exact List.Perm.swap x y ys
  | y :: ys, k + 1, b, h => by
      simp only [List.getElem?_cons_succ] at h
      have ih := cons_set_perm x ys k b h
      show List.Perm (b :: y :: ys.set k x) (x :: y :: ys)
      have h1 : List.Perm (b :: y :: ys.set k x) (y :: b :: ys.set k x) :=
        List.Perm.swap y b _
      have h2 : List.Perm (y :: b :: ys.set k x) (y :: x :: ys) := ih.cons y
      have h3 : List.Perm (y :: x :: ys) (x :: y :: ys) := List.Perm.swap x y ys
      exact (h1.trans h2).trans h3

/-- Swapping two in-range positions of a list yields a permutation of it. -/
theorem set_set_perm : ∀ (l : List α) (i j : Nat) (a b : α),
    l[i]? = some a → l[j]? = some b → List.Perm ((l.set i b).set j a) l
  | [], i, _, _, _, ha, _ => by simp at ha
  | x :: xs, 0, 0, a, b, ha, hb => by
      simp only [List.getElem?_cons_zero, Option.some.injEq] at ha hb
      subst ha; subst hb
      exact List.Perm.refl _
  | x :: xs, 0, k + 1, a, b, ha, hb => by
      simp only [List.getElem?_cons_zero, List.getElem?_cons_succ,
        Option.some.injEq] at ha hb
      subst ha
      exact cons_set_perm x xs k b hb
  | x :: xs, m + 1, 0, a, b, ha, hb => by
      simp only [List.getElem?_cons_zero, List.getElem?_cons_succ,
        Option.some.injEq] at ha hb
      subst hb
      exact cons_set_perm x xs m a ha
  | x :: xs, m + 1, k + 1, a, b, ha, hb => by
      simp only [List.getElem?_cons_succ] at ha hb
      exact (set_set_perm xs m k a b ha hb).cons x

/-- A `listSwap` step is always a permutation. -/
theorem listSwap_perm (l : List α) (i j : Nat) : List.Perm (listSwap l i j) l := by
  unfold listSwap
  cases ha : l[i]? with
  | none => exact List.Perm.refl l
  | some a =>
    cases hb : l[j]? with
    | none => exact List.Perm.refl l
    | some b => exact set_set_perm l i j a b ha hb

/-- Folding permutation-preserving steps preserves the permutation class. -/
theorem foldl_perm {f : List α → Nat → List α}
    (hf : ∀ acc i, List.Perm (f acc i) acc) :
    ∀ (idxs : List Nat) (l : List α), List.Perm (idxs.foldl f l) l
  | [], l => List.Perm.refl l
  | i :: rest, l => (foldl_perm hf rest (f l i)).trans (hf l i)

/-- The Fisher-Yates shuffle returns a permutation of its input, for every
random source. -/
theorem shuffle_perm (rand : Nat → Nat) (l : List α) :
    List.Perm (shuffle rand l) l :=
  foldl_perm (fun acc i => listSwap_perm acc i _) (List.range l.length) l

/-- A list is its optional head followed by its tail. -/
theorem head?_toList_append_tail : ∀ (l : List α), l.head?.toList ++ l.tail = l
  | [] => rfl
  | _ :: _ => rfl

/-- A 2D point (`Point` from pow-core); `new Point()` and `new Point(0, 0)`
both denote the origin.  Coordinates stay integral in everything modelled
here. -/
structure Point where
  x : Int
  y : Int
deriving DecidableEq, Repr

/-- The nested `ChooseActionStateMachine` as the choose-action state component
uses it: its `current` combatant, its current state name (set through
`setCurrentState`), and its `target` (written by `pointAtItem`).  The class
itself lives in `choose-action.machine.ts`, which is not among the provided
sources; modelled from the spec: it is constructed with the host component,
the scene, the choose event payload and the submit relay, and starts with no
current combatant or target. -/
structure ChooseActionStateMachine where
  current : Option GameEntityObject
  stateName : String
  target : Option GameEntityObject
deriving DecidableEq, Repr

/-- The mutable state read and written by `CombatChooseActionStateComponent`
together with the `CombatStateMachineComponent` fields it touches:
`machine.turnList`, `machine.current`, `machine.currentDone`,
`machine.playerChoices`, the machine's current state name, the component's
`pending` list, the captured local `choices` array, the `_currentMachine`
sub-machine (null when inert), and the pointer fields `pointAt`,
`pointOffset`, `pointerOffset`. -/
structure ChooseActionState where
  turnList : List GameEntityObject
  current : Option GameEntityObject
  currentDone : Bool
  playerChoices : List (Nat × CombatActionBehavior)
  currentState : String
  pending : List GameEntityObject
  choices : List GameEntityObject
  subMachine : Option ChooseActionStateMachine
  pointAt : Option GameEntityObject
  pointOffset : Point
  pointerOffset : Point
deriving DecidableEq, Repr

/-- Modelled from the spec: `CombatStateMachineComponent.getLiveParty`
(`combat.machine.ts` is not among the provided sources).  The spec derives
liveness from hit points > 0 and defines the Pending Set as all living party
combatants. -/
def getLiveParty (party : List GameEntityObject) : List GameEntityObject :=
  party.filter (fun c => decide (0 < c.hp))

/-- Modelled from the spec: `CombatStateMachineComponent.getLiveEnemies`
(`combat.machine.ts` is not among the provided sources); the living enemies,
by the same hit-point liveness. -/
def getLiveEnemies (enemies : List GameEntityObject) : List GameEntityObject :=
  enemies.filter (fun c => decide (0 < c.hp))

/-- Modelled from the spec: `machine.setCurrentState(name)`
(`combat.machine.ts` is not among the provided sources) transitions the
combat state machine to the named state; only the resulting state name is
relevant to the claims. -/
def setCurrentState (s : ChooseActionState) (name : String) : ChooseActionState :=
  { s with currentState := name }

/-- The submission callback `chooseData.choose` built in
`CombatChooseActionStateComponent.enter`: record the action under its actor's
uid in `machine.playerChoices`, drop the actor from `pending` by uid, and if
`pending` became empty transition to `begin-turn`.  (The source also logs the
choice to the console, which has no effect on this state.) -/
def choose (s : ChooseActionState) (action : CombatActionBehavior) :
    ChooseActionState :=
  let s1 := { s with
    playerChoices := objSet s.playerChoices action.from_.uid action
    pending := s.pending.filter (fun p => action.from_.uid != p.uid) }
  if s1.pending.length = 0 then setCurrentState s1 "begin-turn" else s1

/-- The local `next` closure of `enter`: shift the next combatant off the
captured `choices` array; if none is left, null out `_currentMachine` (the
sub-machine becomes inert), otherwise set it as the sub-machine's `current`
and put the sub-machine into its `choose-action` state.  Returns `none` for
the null dereference that occurs when a combatant remains but
`_currentMachine` is null (unreachable from `enter`). -/
def next (s : ChooseActionState) : Option ChooseActionState :=
  match s.choices with
  | [] => some { s with subMachine := none }
  | p :: rest =>
    match s.subMachine with
    | none => none
    | some m =>
      some { s with
        choices := rest
        subMachine := some { m with current := some p, stateName := "choose-action" } }

/-- The local `chooseSubmit` closure of `enter`: relay the action to the
host's submission callback `this._currentMachine.data.choose` (a null
dereference — `none` — when the sub-machine is null), then advance via
`next()`. -/
def chooseSubmit (s : ChooseActionState) (action : CombatActionBehavior) :
    Option ChooseActionState :=
  match s.subMachine with
  | none => none
  | some _ => next (choose s action)

/-- `CombatChooseActionStateComponent.enter`, given the random source feeding
`_.shuffle`, the machine's party and enemy rosters, and the component state
prior to entry: build `turnList` by shuffling the living party and enemies,
shift its first entry into `machine.current`, set `machine.currentDone =
true`, reset `pending` to the living party and `machine.playerChoices` to the
empty object, capture `choices` as a copy of the pending players, construct a
fresh `ChooseActionStateMachine`, and run `next()` once.  (The guard throwing
`Invalid Combat Scene` when no scene is bound concerns scene wiring, not this
state.) -/
def enter (rand : Nat → Nat) (party enemies : List GameEntityObject)
    (prior : ChooseActionState) : ChooseActionState :=
  let liveParty := getLiveParty party
  let combatants := liveParty ++ getLiveEnemies enemies
  let shuffled := shuffle rand combatants
  let s0 : ChooseActionState := { prior with
    turnList := shuffled.tail
    current := shuffled.head?
    currentDone := true
    playerChoices := []
    currentState := "choose-action"
    pending := liveParty
    choices := liveParty
    subMachine := some { current := none, stateName := "", target := none } }
  (next s0).getD s0

/-- The source of a combat menu item (`ICombatMenuItem.source`), a union of
`GameEntityObject`, `CombatActionBehavior` and `ITemplateBaseItem`; the
`instanceof GameEntityObject` test in `pointAtItem` distinguishes the first
variant. -/
inductive MenuSource
  | entity (e : GameEntityObject)
  | action (a : CombatActionBehavior)
  | templateItem (id : String)
deriving DecidableEq, Repr

/-- A selectable combat menu item (`ICombatMenuItem`); its `select()` callback
is behaviour of the menu wiring, not of `pointAtItem`. -/
structure ICombatMenuItem where
  label : String
  source : MenuSource
deriving DecidableEq, Repr

/-- `CombatChooseActionStateComponent.setPointerTarget`: record the pointed-at
object and copy `pointerOffset` into `pointOffset`.  The direction CSS class
switched on the pointer element is pure presentation and carries no state the
claims mention. -/
def setPointerTarget (s : ChooseActionState) (obj : GameEntityObject) :
    ChooseActionState :=
  { s with pointAt := some obj, pointOffset := s.pointerOffset }

/-- `CombatChooseActionStateComponent.pointAtItem`: when the item's source is
a `GameEntityObject`, set `pointAt`, run `setPointerTarget`, and write the
sub-machine's `target` (`none` models the null dereference when
`_currentMachine` is null); otherwise do nothing. -/
def pointAtItem (s : ChooseActionState) (item : ICombatMenuItem) :
    Option ChooseActionState :=
  match item.source with
  | MenuSource.entity e =>
    match s.subMachine with
    | none => none
    | some m =>
      some { setPointerTarget { s with pointAt := some e } e with
             subMachine := some { m with target := some e } }
  | _ => some s

/-! ## CombatComponent: damage presentation and the notify/wait gate -/

/-- The record `CombatComponent.applyDamage` pushes onto `damages`: the
displayed number is `Math.abs(value)`, the `miss` CSS class is set exactly
when `value === 0` and the `heal` class exactly when `value < 0`.  The screen
position (camera/world-to-screen geometry) and the five-second expiry
timestamp are presentation placement the claims do not touch. -/
structure DamageRecord where
  value : Nat
  miss : Bool
  heal : Bool
deriving DecidableEq, Repr

/-- `CombatComponent.applyDamage`: append the classification record for
`value` to the `damages` array. -/
def applyDamage (damages : List DamageRecord) (value : Int) : List DamageRecord :=
  damages ++ [{ value := value.natAbs
                miss := decide (value = 0)
                heal := decide (value < 0) }]

/-- The message the `combat:attack` handler builds from the attacker name
`a`, defender name `b` and the damage value (template literals written as
explicit concatenation). -/
def attackMessage (a b : String) (damage : Int) : String :=
  if 0 < damage then
    a ++ " attacked " ++ b ++ " for " ++ toString damage ++ " damage!"
  else if damage < 0 then
    a ++ " healed " ++ b ++ " for " ++ toString damage.natAbs ++ " hit points"
  else
    a ++ " attacked " ++ b ++ ", and MISSED!"

/-- Modelled from the spec: the Presentation Synchronization Gate around
`machine.notifyWait` (`combat.machine.ts` is not among the provided sources).
`notifyWait` hands out a fresh single-use completion token and records it as
outstanding; the machine proceeds past the wait point only when no token is
outstanding. -/
structure NotifyGate where
  nextId : Nat
  outstanding : List Nat
deriving DecidableEq, Repr

/-- Modelled from the spec: `machine.notifyWait()` — obtain a fresh
completion token, recorded as outstanding. -/
def notifyWait (g : NotifyGate) : NotifyGate × Nat :=
  ({ nextId := g.nextId + 1, outstanding := g.outstanding ++ [g.nextId] },
   g.nextId)

/-- Modelled from the spec: invoking a completion token discharges it; the
token is single-use, so invoking it again changes nothing. -/
def invokeToken (g : NotifyGate) (t : Nat) : NotifyGate :=
  { g with outstanding := g.outstanding.filter (fun u => u != t) }

/-- Modelled from the spec: the state machine proceeds to the next turn only
when every handed-out completion token has been invoked. -/
def canProceed (g : NotifyGate) : Bool := g.outstanding.isEmpty

/-- `CombatAttackSummary` (payload of `combat:attack`): the damage value and
the attacker and defender entities. -/
structure CombatAttackSummary where
  damage : Int
  attacker : GameEntityObject
  defender : GameEntityObject
deriving DecidableEq, Repr

/-- `CombatRunSummary` (payload of `combat:run`): the escaping player and
whether the escape succeeded. -/
structure CombatRunSummary where
  player : GameEntityObject
  success : Bool
deriving DecidableEq, Repr

/-- What the registered `combat:attack` handler does: the updated gate, the
token it obtained, and the message, damage record and shake decision it hands
to the presentation services. -/
structure AttackHandlerOutcome where
  gate : NotifyGate
  token : Nat
  message : String
  damages : List DamageRecord
  shake : Bool
deriving DecidableEq, Repr

/-- The `combat:attack` handler registered in
`CombatComponent._bindRenderCombat`: obtain one completion token via
`notifyWait`, build the narration message, push the damage record via
`applyDamage`, and shake the canvas exactly when the damage is positive and
the defender is a `CombatPlayerComponent`; the message display is given the
token as its completion callback. -/
def onCombatAttack (g : NotifyGate) (damages : List DamageRecord)
    (data : CombatAttackSummary) : AttackHandlerOutcome :=
  let gt := notifyWait g
  { gate := gt.1
    token := gt.2
    message := attackMessage data.attacker.name data.defender.name data.damage
    damages := applyDamage damages data.damage
    shake := decide (0 < data.damage) && data.defender.isPlayer }

/-- What the registered `combat:run` handler does. -/
structure RunHandlerOutcome where
  gate : NotifyGate
  token : Nat
  message : String
deriving DecidableEq, Repr

/-- The `combat:run` handler registered in
`CombatComponent._bindRenderCombat`: obtain one completion token via
`notifyWait` and show the escape message with the token as its completion
callback. -/
def onCombatRun (g : NotifyGate) (data : CombatRunSummary) : RunHandlerOutcome :=
  let gt := notifyWait g
  { gate := gt.1
    token := gt.2
    message := data.player.name ++
      (if data.success then " bravely ran away!" else " failed to escape!") }

/-- An observable effect of acknowledging the defeat message:
the game-state reinitialization running, or a completion token being
invoked. -/
inductive DefeatEffect
  | initGameRun
  | tokenInvoke (t : Nat)
deriving DecidableEq, Repr

/-- Modelled from the spec: `game.initGame()` — the external game-state
reinitialization hook; its promise resolves once reinitialization has
completed, so its effect trace is that single completion. -/
def initGameEffects : List DefeatEffect := [DefeatEffect.initGameRun]

/-- Modelled from the spec (JS promise semantics): `p.then(k)` runs the
continuation's effects strictly after the promise's own effects complete. -/
def promiseThen (p k : List DefeatEffect) : List DefeatEffect := p ++ k

/-- What the registered `combat:defeat` handler does: the gate and token, the
defeat message, and the ordered effects of the player acknowledging the
message (`() => this.game.initGame().then(done)`). -/
structure DefeatHandlerOutcome where
  gate : NotifyGate
  token : Nat
  message : String
  ackEffects : List DefeatEffect
deriving DecidableEq, Repr

/-- The `combat:defeat` handler registered in
`CombatComponent._bindRenderCombat`: obtain one completion token via
`notifyWait`, show the defeat message, and on acknowledgement run
`game.initGame()` and invoke the token when its promise resolves. -/
def onCombatDefeat (g : NotifyGate) : DefeatHandlerOutcome :=
  let gt := notifyWait g
  { gate := gt.1
    token := gt.2
    message := "Your party was defeated..."
    ackEffects := promiseThen initGameEffects [DefeatEffect.tokenInvoke gt.2] }

/-! ## Concrete fixtures (spec end-to-end scenarios A and B) -/

/-- The component/machine state as constructed: empty lists, no sub-machine,
`pointAt` null, both pointer offsets at the origin. -/
def initialState : ChooseActionState :=
  { turnList := []
    current := none
    currentDone := false
    playerChoices := []
    currentState := ""
    pending := []
    choices := []
    subMachine := none
    pointAt := none
    pointOffset := { x := 0, y := 0 }
    pointerOffset := { x := 0, y := 0 } }

def warrior : GameEntityObject :=
  { uid := 1, name := "Warrior", hp := 20, isPlayer := true }

def mage : GameEntityObject :=
  { uid := 2, name := "Mage", hp := 12, isPlayer := true }

def goblin : GameEntityObject :=
  { uid := 3, name := "Goblin", hp := 5, isPlayer := false }

def warriorAttack : CombatActionBehavior :=
  { from_ := warrior, actionName := "attack" }

/-- A second, different action for the Warrior, submitted out of turn. -/
def warriorMagic : CombatActionBehavior :=
  { from_ := warrior, actionName := "magic" }

def mageAttack : CombatActionBehavior :=
  { from_ := mage, actionName := "attack" }

def scenarioBSub : ChooseActionStateMachine :=
  { current := some mage, stateName := "choose-action", target := none }

/-- Spec scenario B, mid-round: the Warrior has already submitted an attack,
so Pending Set = {Mage}; the sub-machine is presenting the Mage. -/
def scenarioBState : ChooseActionState :=
  { initialState with
    currentState := "choose-action"
    turnList := [goblin]
    current := some warrior
    currentDone := true
    playerChoices := [(warrior.uid, warriorAttack)]
    pending := [mage]
    choices := [mage]
    subMachine := some scenarioBSub }

def gate0 : NotifyGate := { nextId := 0, outstanding := [] }

def sampleAttack : CombatAttackSummary :=
  { damage := 3, attacker := goblin, defender := warrior }

def sampleRun : CombatRunSummary := { player := warrior, success := false }

/-! ## Shared helper lemmas -/

/-- Field values of the state produced by `enter` (the trailing `next()` call
touches only `choices` and `subMachine`). -/
theorem enter_fields (rand : Nat → Nat) (party enemies : List GameEntityObject)
    (prior : ChooseActionState) :
    (enter rand party enemies prior).turnList
        = (shuffle rand (getLiveParty party ++ getLiveEnemies enemies)).tail
    ∧ (enter rand party enemies prior).current
        = (shuffle rand (getLiveParty party ++ getLiveEnemies enemies)).head?
    ∧ (enter rand party enemies prior).currentDone = true
    ∧ (enter rand party enemies prior).pending = getLiveParty party
    ∧ (enter rand party enemies prior).playerChoices = []
    ∧ (enter rand party enemies prior).currentState = "choose-action" := by
  unfold enter
  cases h : getLiveParty party with
  | nil => simp [next, h]
  | cons p rest => simp [next, h]

/-! ## Claim theorems -/

/-- **C1 (counterexample)**: the claim says a submission whose actor is not in
the Pending Set (here: a second submission for the Warrior, who already
submitted and is no longer pending) fails with `InvalidChoiceError` and
leaves the round's state unchanged.  On the code the call does not fail at
all — `chooseData.choose` has no validation — and it mutates the Player
Choice Map, overwriting the Warrior's earlier choice. -/
theorem choose_double_submit_mutates :
    (choose scenarioBState warriorMagic).pending = scenarioBState.pending
    ∧ (choose scenarioBState warriorMagic).playerChoices
        ≠ scenarioBState.playerChoices
    ∧ objGet (choose scenarioBState warriorMagic).playerChoices warrior.uid
        = some warriorMagic := by decide

/-- **C1 (amended)**: a submission whose actor is not in the Pending Set
(including a double submission) is accepted silently: no error is raised, the
action is recorded (overwriting any earlier entry) under the actor's uid in
the Player Choice Map, the Pending Set, Turn Order and current combatant are
unchanged, and the begin-turn transition fires (again) exactly when the
Pending Set was already empty. -/
theorem choose_invalid_actor_no_error (s : ChooseActionState)
    (a : CombatActionBehavior)
    (h : ∀ p ∈ s.pending, p.uid ≠ a.from_.uid) :
    (choose s a).pending = s.pending
    ∧ (choose s a).turnList = s.turnList
    ∧ (choose s a).current = s.current
    ∧ (choose s a).playerChoices = objSet s.playerChoices a.from_.uid a
    ∧ (choose s a).currentState
        = if s.pending.isEmpty then "begin-turn" else s.currentState := by
  have hfilter : s.pending.filter (fun p => a.from_.uid != p.uid) = s.pending :=
    List.filter_eq_self.mpr (fun p hp => bne_iff_ne.mpr (Ne.symm (h p hp)))
  unfold choose setCurrentState
  simp only [hfilter]
  cases hsp : s.pending with
  | nil => simp
  | cons p rest => simp

/-- **C1 (witness)** for the amended claim, at scenario B's state. -/
theorem choose_invalid_actor_no_error_witness :
    (choose scenarioBState warriorMagic).pending = scenarioBState.pending
    ∧ (choose scenarioBState warriorMagic).turnList = scenarioBState.turnList
    ∧ (choose scenarioBState warriorMagic).current = scenarioBState.current
    ∧ (choose scenarioBState warriorMagic).playerChoices
        = objSet scenarioBState.playerChoices warriorMagic.from_.uid warriorMagic
    ∧ (choose scenarioBState warriorMagic).currentState
        = if scenarioBState.pending.isEmpty then "begin-turn"
          else scenarioBState.currentState :=
  choose_invalid_actor_no_error scenarioBState warriorMagic (by decide)

/-- **C2**: on entry to choose-action, the current acting combatant together
with the remaining Turn Order is a permutation of exactly the combatants
alive at round start (living party ++ living enemies); when those are
duplicate-free so is the turn order, and every member of it is alive —
the dead were excluded before the shuffle. -/
theorem enter_turnOrder_perm (rand : Nat → Nat)
    (party enemies : List GameEntityObject) (prior : ChooseActionState)
    (hnd : (getLiveParty party ++ getLiveEnemies enemies).Nodup) :
    List.Perm
      ((enter rand party enemies prior).current.toList
        ++ (enter rand party enemies prior).turnList)
      (getLiveParty party ++ getLiveEnemies enemies)
    ∧ ((enter rand party enemies prior).current.toList
        ++ (enter rand party enemies prior).turnList).Nodup
    ∧ ∀ c ∈ (enter rand party enemies prior).current.toList
        ++ (enter rand party enemies prior).turnList, 0 < c.hp := by
  obtain ⟨ht, hc, -⟩ := enter_fields rand party enemies prior
  rw [ht, hc, head?_toList_append_tail]
  have hperm := shuffle_perm rand (getLiveParty party ++ getLiveEnemies enemies)
  refine ⟨hperm, hperm.nodup_iff.mpr hnd, ?_⟩
  intro c hm
  rcases List.mem_append.mp (hperm.mem_iff.mp hm) with hin | hin
  · unfold getLiveParty at hin
    exact of_decide_eq_true (List.mem_filter.mp hin).2
  · unfold getLiveEnemies at hin
    exact of_decide_eq_true (List.mem_filter.mp hin).2

/-- **C2 (witness)** at spec scenario A's roster plus the Mage. -/
theorem enter_turnOrder_perm_witness :
    List.Perm
      ((enter (fun _ => 0) [warrior, mage] [goblin] initialState).current.toList
        ++ (enter (fun _ => 0) [warrior, mage] [goblin] initialState).turnList)
      (getLiveParty [warrior, mage] ++ getLiveEnemies [goblin])
    ∧ ((enter (fun _ => 0) [warrior, mage] [goblin] initialState).current.toList
        ++ (enter (fun _ => 0) [warrior, mage] [goblin] initialState).turnList).Nodup :=
  ⟨(enter_turnOrder_perm (fun _ => 0) [warrior, mage] [goblin] initialState
      (by decide)).1,
   (enter_turnOrder_perm (fun _ => 0) [warrior, mage] [goblin] initialState
      (by decide)).2.1⟩

/-- **C3**: a submission transitions the machine to begin-turn exactly when
the Pending Set it leaves behind is empty — synchronously, within the same
`choose` call; and when pending uids are distinct and the actor is pending,
that happens exactly when the actor was the last pending combatant. -/
theorem choose_begin_turn_iff (s : ChooseActionState) (a : CombatActionBehavior)
    (hstate : s.currentState = "choose-action") :
    ((choose s a).currentState = "begin-turn" ↔ (choose s a).pending = [])
    ∧ (s.pending.Pairwise (fun p q => p.uid ≠ q.uid) → a.from_ ∈ s.pending →
        ((choose s a).currentState = "begin-turn" ↔ s.pending = [a.from_])) := by
  have hpend : (choose s a).pending
      = s.pending.filter (fun p => a.from_.uid != p.uid) := by
    simp only [choose, setCurrentState]
    split <;> rfl
  have hmain : (choose s a).currentState = "begin-turn"
      ↔ s.pending.filter (fun p => a.from_.uid != p.uid) = [] := by
    unfold choose setCurrentState
    cases h : s.pending.filter (fun p => a.from_.uid != p.uid) with
    | nil => simp [h]
    | cons q rest => simp [h, hstate]
  constructor
  · rw [hmain, hpend]
  · intro hpw hmem
    rw [hmain]
    constructor
    · intro hnil
      have hall : ∀ p ∈ s.pending, p.uid = a.from_.uid := by
        intro p hp
        have := List.filter_eq_nil_iff.mp hnil p hp
        exact (by simpa [bne_iff_ne] using this : a.from_.uid = p.uid).symm
      cases hsp : s.pending with
      | nil => rw [hsp] at hmem; cases hmem
      | cons p rest =>
        rw [hsp] at hpw hmem hall
        have hrest : rest = [] := by
          cases hr : rest with
          | nil => rfl
          | cons q rest2 =>
            rw [hr] at hpw hall
            have h1 : p.uid ≠ q.uid :=
              (List.pairwise_cons.mp hpw).1 q (by simp)
            have h2 : p.uid = a.from_.uid := hall p (by simp)
            have h3 : q.uid = a.from_.uid := hall q (by simp)
            exact absurd (h2.trans h3.symm) h1
        rw [hrest] at hmem
        have : a.from_ = p := by
          rcases List.mem_singleton.mp hmem with h
          exact h
        rw [hrest, this]
    · intro hsingle
      rw [hsingle]
      simp

/-- **C3 (witness)**: the Mage is the last pending combatant in scenario B;
submitting the Mage's action transitions to begin-turn. -/
theorem choose_begin_turn_iff_witness :
    (choose scenarioBState mageAttack).currentState = "begin-turn"
    ↔ scenarioBState.pending = [mageAttack.from_] :=
  (choose_begin_turn_iff scenarioBState mageAttack (by decide)).2
    (by decide) (by decide)

/-- The spec's words for C4, stated over the embedding for comparison with
the code: after entry, the popped current acting combatant is "marked not yet
processed", i.e. the machine's done-with-current flag is cleared. -/
def markedNotYetProcessed (s : ChooseActionState) : Prop :=
  s.currentDone = false

/-- **C4 (counterexample)**: on a concrete entry (party Warrior and Mage,
enemy Goblin), the combatant popped from Turn Order is *not* marked
not-yet-processed: `enter` sets `machine.currentDone = true`. -/
theorem enter_not_markedNotYetProcessed :
    ¬ markedNotYetProcessed (enter (fun _ => 0) [warrior, mage] [goblin]
        initialState) := by
  unfold markedNotYetProcessed
  decide

/-- **C4 (amended)**: on every entry to the choose-action state, after popping
the first entry of the shuffled Turn Order as the current acting combatant,
the machine's `currentDone` flag is set to `true` (the code marks the current
combatant as done, not as "not yet processed"). -/
theorem enter_sets_currentDone_true (rand : Nat → Nat)
    (party enemies : List GameEntityObject) (prior : ChooseActionState) :
    (enter rand party enemies prior).current
        = (shuffle rand (getLiveParty party ++ getLiveEnemies enemies)).head?
    ∧ (enter rand party enemies prior).turnList
        = (shuffle rand (getLiveParty party ++ getLiveEnemies enemies)).tail
    ∧ (enter rand party enemies prior).currentDone = true := by
  obtain ⟨ht, hc, hd, -⟩ := enter_fields rand party enemies prior
  exact ⟨hc, ht, hd⟩

/-- **C5**: the choose-action sub-machine driver: `next` pops the next
pending combatant and, when one exists, sets it as the sub-machine's current
combatant in its selection-accepting state; when none remains it nulls out
the sub-machine and stays inert (applying `next` again changes nothing);
`chooseSubmit` relays the action to the host's submission callback `choose`
and then advances via `next`, and `choose` itself leaves the advance queue
and sub-machine untouched. -/
theorem chooseSubmit_relays_then_advances (s : ChooseActionState)
    (a : CombatActionBehavior) (m : ChooseActionStateMachine)
    (p : GameEntityObject) (rest : List GameEntityObject) :
    (s.choices = [] →
      next s = some { s with subMachine := none }
      ∧ next { s with subMachine := none } = some { s with subMachine := none })
    ∧ (s.choices = p :: rest → s.subMachine = some m →
      next s = some { s with
        choices := rest
        subMachine := some { m with
          current := some p, stateName := "choose-action" } })
    ∧ (s.subMachine = some m →
      chooseSubmit s a = next (choose s a)
      ∧ (choose s a).choices = s.choices
      ∧ (choose s a).subMachine = s.subMachine) := by
  refine ⟨?_, ?_, ?_⟩
  · intro h
    constructor
    · simp [next, h]
    · simp [next, h]
  · intro h hm
    simp [next, h, hm]
  · intro hm
    refine ⟨?_, ?_, ?_⟩
    · simp [chooseSubmit, hm]
    · simp only [choose, setCurrentState]
      split <;> rfl
    · simp only [choose, setCurrentState]
      split <;> rfl

/-- **C5 (witness)** at scenario B: advancing pops the Mage and presents it;
submitting relays through `choose` and advances. -/
theorem chooseSubmit_relays_then_advances_witness :
    next scenarioBState = some { scenarioBState with
      choices := []
      subMachine := some { scenarioBSub with
        current := some mage, stateName := "choose-action" } }
    ∧ chooseSubmit scenarioBState mageAttack
        = next (choose scenarioBState mageAttack) :=
  ⟨(chooseSubmit_relays_then_advances scenarioBState mageAttack scenarioBSub
      mage []).2.1 rfl rfl,
   ((chooseSubmit_relays_then_advances scenarioBState mageAttack scenarioBSub
      mage []).2.2 rfl).1⟩

/-- **C8**: pointing at a menu item whose source is a combatant entity updates
only the transient pointer state (`pointAt`, the pointer offset copy) and the
sub-machine's `target`; pointing at any other menu item changes nothing; and
in every case no action is submitted — the Pending Set, Player Choice Map,
Turn Order, current combatant, machine state and advance queue are
unchanged. -/
theorem pointAtItem_effect (s : ChooseActionState) (item : ICombatMenuItem)
    (e : GameEntityObject) (m : ChooseActionStateMachine) :
    (item.source = MenuSource.entity e → s.subMachine = some m →
      pointAtItem s item = some { s with
        pointAt := some e
        pointOffset := s.pointerOffset
        subMachine := some { m with target := some e } })
    ∧ ((∀ e0, item.source ≠ MenuSource.entity e0) →
        pointAtItem s item = some s)
    ∧ (∀ s2, pointAtItem s item = some s2 →
        s2.pending = s.pending ∧ s2.playerChoices = s.playerChoices
        ∧ s2.turnList = s.turnList ∧ s2.current = s.current
        ∧ s2.currentState = s.currentState ∧ s2.choices = s.choices) := by
  refine ⟨?_, ?_, ?_⟩
  · intro hsrc hm
    simp [pointAtItem, setPointerTarget, hsrc, hm]
  · intro hne
    cases hsrc : item.source with
    | entity e0 => exact absurd hsrc (hne e0)
    | action a0 => simp [pointAtItem, hsrc]
    | templateItem t0 => simp [pointAtItem, hsrc]
  · intro s2 hs2
    cases hsrc : item.source with
    | entity e0 =>
      cases hm : s.subMachine with
      | none => rw [pointAtItem, hsrc, hm] at hs2; cases hs2
      | some m0 =>
        rw [pointAtItem, hsrc, hm] at hs2
        simp only [Option.some.injEq] at hs2
        subst hs2
        simp [setPointerTarget]
    | action a0 =>
      rw [pointAtItem, hsrc] at hs2
      simp only [Option.some.injEq] at hs2
      subst hs2
      exact ⟨rfl, rfl, rfl, rfl, rfl, rfl⟩
    | templateItem t0 =>
      rw [pointAtItem, hsrc] at hs2
      simp only [Option.some.injEq] at hs2
      subst hs2
      exact ⟨rfl, rfl, rfl, rfl, rfl, rfl⟩

/-- **C8 (witness)**: pointing at the Goblin's menu entry in scenario B
retargets the pointer and sub-machine; pointing at a non-combatant entry is a
no-op. -/
theorem pointAtItem_effect_witness :
    pointAtItem scenarioBState { label := "Goblin", source := MenuSource.entity goblin }
      = some { scenarioBState with
          pointAt := some goblin
          pointOffset := scenarioBState.pointerOffset
          subMachine := some { scenarioBSub with target := some goblin } }
    ∧ pointAtItem scenarioBState
        { label := "Attack", source := MenuSource.action mageAttack }
      = some scenarioBState :=
  ⟨(pointAtItem_effect scenarioBState
      { label := "Goblin", source := MenuSource.entity goblin } goblin
      scenarioBSub).1 rfl rfl,
   (pointAtItem_effect scenarioBState
      { label := "Attack", source := MenuSource.action mageAttack } goblin
      scenarioBSub).2.1 (fun _ h => MenuSource.noConfusion h)⟩

/-- **C6**: each of the three registered handlers (`combat:attack`,
`combat:run`, `combat:defeat`) obtains exactly one completion token from
`notifyWait` per event — starting from a gate with nothing outstanding, the
handler leaves exactly its one token outstanding — and the machine cannot
proceed until that token is invoked, can proceed once it is, and the token is
single-use: invoking it a second time changes nothing. -/
theorem handlers_obtain_one_token (g : NotifyGate) (ds : List DamageRecord)
    (atk : CombatAttackSummary) (escape : CombatRunSummary)
    (h : g.outstanding = []) :
    ((onCombatAttack g ds atk).gate.outstanding = [(onCombatAttack g ds atk).token]
      ∧ canProceed (onCombatAttack g ds atk).gate = false
      ∧ canProceed (invokeToken (onCombatAttack g ds atk).gate
          (onCombatAttack g ds atk).token) = true
      ∧ invokeToken (invokeToken (onCombatAttack g ds atk).gate
            (onCombatAttack g ds atk).token) (onCombatAttack g ds atk).token
          = invokeToken (onCombatAttack g ds atk).gate
              (onCombatAttack g ds atk).token)
    ∧ ((onCombatRun g escape).gate.outstanding = [(onCombatRun g escape).token]
      ∧ canProceed (onCombatRun g escape).gate = false
      ∧ canProceed (invokeToken (onCombatRun g escape).gate
          (onCombatRun g escape).token) = true
      ∧ invokeToken (invokeToken (onCombatRun g escape).gate
            (onCombatRun g escape).token) (onCombatRun g escape).token
          = invokeToken (onCombatRun g escape).gate (onCombatRun g escape).token)
    ∧ ((onCombatDefeat g).gate.outstanding = [(onCombatDefeat g).token]
      ∧ canProceed (onCombatDefeat g).gate = false
      ∧ canProceed (invokeToken (onCombatDefeat g).gate
          (onCombatDefeat g).token) = true
      ∧ invokeToken (invokeToken (onCombatDefeat g).gate
            (onCombatDefeat g).token) (onCombatDefeat g).token
          = invokeToken (onCombatDefeat g).gate (onCombatDefeat g).token) := by
  refine ⟨⟨?_, ?_, ?_, ?_⟩, ⟨?_, ?_, ?_, ?_⟩, ⟨?_, ?_, ?_, ?_⟩⟩ <;>
    simp [onCombatAttack, onCombatRun, onCombatDefeat, notifyWait, invokeToken,
      canProceed, h]

/-- **C6 (witness)** at an empty gate and scenario A's first attack. -/
theorem handlers_obtain_one_token_witness :
    canProceed (onCombatAttack gate0 [] sampleAttack).gate = false
    ∧ canProceed (invokeToken (onCombatAttack gate0 [] sampleAttack).gate
        (onCombatAttack gate0 [] sampleAttack).token) = true
    ∧ canProceed (onCombatRun gate0 sampleRun).gate = false
    ∧ canProceed (onCombatDefeat gate0).gate = false :=
  ⟨(handlers_obtain_one_token gate0 [] sampleAttack sampleRun rfl).1.2.1,
   (handlers_obtain_one_token gate0 [] sampleAttack sampleRun rfl).1.2.2.1,
   (handlers_obtain_one_token gate0 [] sampleAttack sampleRun rfl).2.1.2.1,
   (handlers_obtain_one_token gate0 [] sampleAttack sampleRun rfl).2.2.2.1⟩

/-- **C7**: acknowledging the defeat message triggers the game-state
reinitialization hook, and the event's completion token is invoked only after
that reinitialization completes: the acknowledgement's effect trace is
exactly reinitialization followed by the token, and wherever the token
occurs in the trace, the reinitialization lies strictly before it. -/
theorem defeat_ack_reinit_before_token (g : NotifyGate) :
    DefeatEffect.initGameRun ∈ (onCombatDefeat g).ackEffects
    ∧ (onCombatDefeat g).ackEffects
        = [DefeatEffect.initGameRun,
           DefeatEffect.tokenInvoke (onCombatDefeat g).token]
    ∧ ∀ pre suf, (onCombatDefeat g).ackEffects
        = pre ++ DefeatEffect.tokenInvoke (onCombatDefeat g).token :: suf →
        DefeatEffect.initGameRun ∈ pre := by
  refine ⟨?_, ?_, ?_⟩
  · simp [onCombatDefeat, promiseThen, initGameEffects, notifyWait]
  · simp [onCombatDefeat, promiseThen, initGameEffects, notifyWait]
  · intro pre suf hsplit
    simp only [onCombatDefeat, promiseThen, initGameEffects, notifyWait] at hsplit
    cases pre with
    | nil => simp at hsplit
    | cons x pre2 =>
      cases pre2 with
      | nil =>
        simp only [List.cons_append, List.nil_append, List.cons.injEq] at hsplit
        rw [hsplit.1]
        simp
      | cons y pre3 =>
        have hlen := congrArg List.length hsplit
        simp [List.length_append] at hlen

/-- **C7 (witness)**: the trace split at the token position forces the
reinitialization into the prefix, at the empty gate. -/
theorem defeat_ack_reinit_before_token_witness :
    DefeatEffect.initGameRun ∈ [DefeatEffect.initGameRun] :=
  (defeat_ack_reinit_before_token gate0).2.2 [DefeatEffect.initGameRun] []
    (by decide)

/-- **C9**: the damage record pushed for an effect value `v` displays `|v|`,
carries the `miss` class exactly when `v = 0` and the `heal` class exactly
when `v < 0`; and the narration reports damage when `v > 0`, healing of `|v|`
when `v < 0`, and a miss when `v = 0`. -/
theorem attack_effect_classification (ds : List DamageRecord) (a b : String)
    (v : Int) :
    (∃ r, applyDamage ds v = ds ++ [r]
      ∧ (r.miss = true ↔ v = 0)
      ∧ (r.heal = true ↔ v < 0)
      ∧ r.value = v.natAbs)
    ∧ (0 < v → attackMessage a b v
        = a ++ " attacked " ++ b ++ " for " ++ toString v ++ " damage!")
    ∧ (v < 0 → attackMessage a b v
        = a ++ " healed " ++ b ++ " for " ++ toString v.natAbs ++ " hit points")
    ∧ (v = 0 → attackMessage a b v = a ++ " attacked " ++ b ++ ", and MISSED!") := by
  refine ⟨⟨{ value := v.natAbs, miss := decide (v = 0), heal := decide (v < 0) },
      rfl, by simp, by simp, rfl⟩, ?_, ?_, ?_⟩
  · intro hv
    rw [attackMessage, if_pos hv]
  · intro hv
    rw [attackMessage, if_neg (by omega), if_pos hv]
  · intro hv
    rw [attackMessage, if_neg (by omega), if_neg (by omega)]

/-- **C9 (witness)**: a zero effect value narrates as a miss, a negative one
as healing of its absolute value. -/
theorem attack_effect_classification_witness :
    attackMessage "Goblin" "Warrior" 0
      = "Goblin" ++ " attacked " ++ "Warrior" ++ ", and MISSED!"
    ∧ attackMessage "Mage" "Warrior" (-7)
      = "Mage" ++ " healed " ++ "Warrior" ++ " for " ++ toString (Int.natAbs (-7))
          ++ " hit points" :=
  ⟨(attack_effect_classification [] "Goblin" "Warrior" 0).2.2.2 rfl,
   (attack_effect_classification [] "Mage" "Warrior" (-7)).2.2.1 (by decide)⟩

/-- **C10**: the camera shake fires on an attack resolution exactly when the
damage is strictly positive and the defender is a party member's
`CombatPlayerComponent`; heals, misses and attacks on enemies never shake. -/
theorem shake_iff_player_damaged (g : NotifyGate) (ds : List DamageRecord)
    (data : CombatAttackSummary) :
    (onCombatAttack g ds data).shake = true
      ↔ 0 < data.damage ∧ data.defender.isPlayer = true := by
  simp [onCombatAttack, Bool.and_eq_true, decide_eq_true_iff]

end AngularRpg
